import Mathlib

/-!
Shallow embedding of the ledger core in `src/blockchain_app.py`.

Modelling conventions:
- Python `float` values (timestamps, amounts) are modelled as `Rat`; the claims
  under consideration only carry these values around and compare them for
  equality, no floating-point arithmetic is performed by the source on them.
- Python `int` is modelled as `Int` (block index, nonce) or `Nat` where the
  source only ever holds a non-negative count (difficulty).
- The `utxo_pool` dict is modelled as a function `String → Option UTXO`;
  `d[k] = v` becomes a pointwise update and `k in d` becomes `(pool k).isSome`.
- `hashlib.sha256(json.dumps(block_data, sort_keys=True).encode()).hexdigest()`
  is modelled as an arbitrary digest function `H : BlockData → String` over the
  block fields dictionary (which excludes the `hash` field, exactly as in
  `compute_hash`).  All positive theorems are proved for every `H`, which is
  stronger than for the one concrete digest.
- The unbounded `while` loop of the miner is modelled with explicit fuel; the
  out-of-fuel outcome `stillMining` represents the loop still running.
- A Python exception raised before any mutation leaves the object unchanged;
  the functional model returns `Except`, and the `...State` wrappers give the
  state of the process after a request (unchanged on error, as in the source,
  where every `raise` happens before the first mutation).
-/

namespace BApp

/-- `Transaction` pydantic model (src/blockchain_app.py lines 14-21). -/
structure Transaction where
  id : String
  sender : String
  receiver : String
  amount : Rat
  input_utxos : List String
  output_utxos : List String
  signature : String
  deriving DecidableEq

/-- `Block` pydantic model (lines 23-29). -/
structure Block where
  index : Int
  timestamp : Rat
  transactions : List Transaction
  previous_hash : String
  nonce : Int
  hash : String
  deriving DecidableEq

/-- `UTXO` pydantic model (lines 32-35). -/
structure UTXO where
  transaction_id : String
  amount : Rat
  is_spent : Bool
  deriving DecidableEq

/-- The dictionary built in `compute_hash` (lines 59-65): every `Block` field
except the block's own `hash`. -/
structure BlockData where
  index : Int
  timestamp : Rat
  transactions : List Transaction
  previous_hash : String
  nonce : Int
  deriving DecidableEq

/-- Mutable state of the `Blockchain` object (lines 39-44). -/
structure Blockchain where
  chain : List Block
  pending_transactions : List Transaction
  utxo_pool : String → Option UTXO
  difficulty : Nat

/-- `compute_hash` (lines 58-67): the digest `H` applied to the block fields
dictionary, which omits the `hash` field. -/
def compute_hash (H : BlockData → String) (b : Block) : String :=
  H { index := b.index, timestamp := b.timestamp, transactions := b.transactions,
      previous_hash := b.previous_hash, nonce := b.nonce }

/-- Boolean list containment used to model Python `str.startswith`. -/
def listIsPre : List Char → List Char → Bool
  | [], _ => true
  | _ :: _, [] => false
  | a :: as, b :: bs => a == b && listIsPre as bs

/-- Python `s.startswith(p)`. -/
def pyStartswith (s p : String) : Bool := listIsPre p.data s.data

/-- Python `"0" * n`. -/
def zeros (n : Nat) : String := String.mk (List.replicate n '0')

/-- `if utxo_id in self.utxo_pool: self.utxo_pool[utxo_id].is_spent = True`
(lines 101-103). -/
def markSpent (pool : String → Option UTXO) (uid : String) : String → Option UTXO :=
  match pool uid with
  | some u => fun k => if k = uid then some { u with is_spent := true } else pool k
  | none => pool

/-- `self.utxo_pool[utxo_id] = UTXO(transaction_id=..., amount=..., is_spent=False)`
(lines 106-110), for one `(utxo_id, amount)` pair of the `zip`. -/
def writeOutput (txid : String) (pool : String → Option UTXO) (p : String × Rat) :
    String → Option UTXO :=
  fun k =>
    if k = p.1 then some { transaction_id := txid, amount := p.2, is_spent := false }
    else pool k

/-- Body of the outer loop of `update_utxo_pool` (lines 100-110) for a single
transaction.  Note the source iterates `zip(transaction.output_utxos,
[transaction.amount])`: the second list has exactly one element. -/
def applyTransaction (pool : String → Option UTXO) (t : Transaction) :
    String → Option UTXO :=
  (t.output_utxos.zip [t.amount]).foldl (writeOutput t.id)
    (t.input_utxos.foldl markSpent pool)

/-- `update_utxo_pool` (lines 99-110). -/
def update_utxo_pool (pool : String → Option UTXO) (b : Block) :
    String → Option UTXO :=
  b.transactions.foldl applyTransaction pool

/-- The output identifiers actually written by `update_utxo_pool` for one
transaction: the first components of `zip(output_utxos, [amount])`. -/
def writtenOutputs (t : Transaction) : List String :=
  (t.output_utxos.zip [t.amount]).map Prod.fst

/-- Failure outcomes of the chain-mutating operations.  `emptyPendingQueue`,
`previousHashMismatch` and `invalidBlockHash` are the HTTP 400 responses of the
source; `indexError` models `chain[-1]` on an empty list; `stillMining` is the
fuel-model stand-in for the proof-of-work loop not having terminated yet. -/
inductive ApiErr where
  | emptyPendingQueue
  | indexError
  | stillMining
  | previousHashMismatch
  | invalidBlockHash
  deriving DecidableEq

/-- Python `self.chain[-1]`. -/
def chainTip (st : Blockchain) : Option Block := st.chain[st.chain.length - 1]?

/-- The `while not new_block.hash.startswith("0" * self.difficulty)` loop of
`mine_block` (lines 83-85), with explicit fuel: each step first increments the
nonce and only then computes the hash, exactly as the loop body does. -/
def mineLoop (H : BlockData → String) (difficulty : Nat) : Nat → Block → Option Block
  | 0, b => if pyStartswith b.hash (zeros difficulty) then some b else none
  | fuel + 1, b =>
    if pyStartswith b.hash (zeros difficulty) then some b
    else
      mineLoop H difficulty fuel
        { b with
          nonce := b.nonce + 1,
          hash := compute_hash H { b with nonce := b.nonce + 1 } }

/-- `mine_block` (lines 69-90). -/
def mine_block (H : BlockData → String) (fuel : Nat) (now : Rat) (st : Blockchain) :
    Except ApiErr (Block × Blockchain) :=
  if st.pending_transactions.isEmpty then .error .emptyPendingQueue
  else
    match chainTip st with
    | none => .error .indexError
    | some last =>
      match mineLoop H st.difficulty fuel
        { index := last.index + 1, timestamp := now,
          transactions := st.pending_transactions,
          previous_hash := last.hash, nonce := 0, hash := "" } with
      | none => .error .stillMining
      | some b =>
        .ok (b, { st with
                  chain := (st.chain ++ [b]),
                  pending_transactions := [],
                  utxo_pool := update_utxo_pool st.utxo_pool b })

/-- `validate_block` (lines 92-97). -/
def validate_block (H : BlockData → String) (st : Blockchain) (b : Block) : Bool :=
  if b.hash ≠ compute_hash H b then false
  else if pyStartswith b.hash (zeros st.difficulty) = false then false
  else true

/-- The `/add_block` endpoint (lines 144-156). -/
def add_block (H : BlockData → String) (st : Blockchain) (b : Block) :
    Except ApiErr Blockchain :=
  match chainTip st with
  | none => .error .indexError
  | some last =>
    if b.previous_hash ≠ last.hash then .error .previousHashMismatch
    else if validate_block H st b = false then .error .invalidBlockHash
    else .ok { st with
               chain := (st.chain ++ [b]),
               utxo_pool := update_utxo_pool st.utxo_pool b }

/-- Process state after a `/mine_block` request: on an exception nothing was
mutated (every `raise` in the source happens before the first mutation). -/
def mineBlockState (H : BlockData → String) (fuel : Nat) (now : Rat)
    (st : Blockchain) : Blockchain :=
  match mine_block H fuel now st with
  | .ok (_, s) => s
  | .error _ => st

/-- Process state after an `/add_block` request. -/
def addBlockState (H : BlockData → String) (st : Blockchain) (b : Block) : Blockchain :=
  match add_block H st b with
  | .ok s => s
  | .error _ => st

/-- `create_genesis_block` (lines 46-56): the genesis block with its hash
filled in.  `t0` is the `time.time()` value at construction. -/
def create_genesis_block (H : BlockData → String) (t0 : Rat) : Block :=
  let g : Block :=
    { index := 0, timestamp := t0, transactions := [], previous_hash := "0",
      nonce := 0, hash := "" }
  { g with hash := compute_hash H g }

/-- `Blockchain.__init__` (lines 39-44). -/
def blockchainStart (H : BlockData → String) (t0 : Rat) : Blockchain :=
  { chain := [create_genesis_block H t0], pending_transactions := [],
    utxo_pool := fun _ => none, difficulty := 4 }

/-- One externally triggered state transition of the process: submitting a
transaction (`/new_transaction`, line 133), mining (`/mine_block`), or
accepting an external block (`/add_block`). -/
inductive Step (H : BlockData → String) : Blockchain → Blockchain → Prop where
  | submit (st : Blockchain) (t : Transaction) :
      Step H st { st with pending_transactions := st.pending_transactions ++ [t] }
  | mine (st st2 : Blockchain) (fuel : Nat) (now : Rat) (b : Block) :
      mine_block H fuel now st = .ok (b, st2) → Step H st st2
  | accept (st st2 : Blockchain) (b : Block) :
      add_block H st b = .ok st2 → Step H st st2

/-- States reachable from a freshly constructed `Blockchain`. -/
def Reachable (H : BlockData → String) (t0 : Rat) (st : Blockchain) : Prop :=
  Relation.ReflTransGen (Step H) (blockchainStart H t0) st

/-- State transitions that never use `/add_block`: only submission and mining. -/
inductive MiningStep (H : BlockData → String) : Blockchain → Blockchain → Prop where
  | submit (st : Blockchain) (t : Transaction) :
      MiningStep H st { st with pending_transactions := st.pending_transactions ++ [t] }
  | mine (st st2 : Blockchain) (fuel : Nat) (now : Rat) (b : Block) :
      mine_block H fuel now st = .ok (b, st2) → MiningStep H st st2

/-- States reachable using only submission and locally mined blocks. -/
def MiningReachable (H : BlockData → String) (t0 : Rat) (st : Blockchain) : Prop :=
  Relation.ReflTransGen (MiningStep H) (blockchainStart H t0) st

/-- A property of every adjacent pair of a list of blocks. -/
def Adjacent (P : Block → Block → Prop) (l : List Block) : Prop :=
  ∀ i x y, l[i]? = some x → l[i + 1]? = some y → P x y

/-- The hash-chain invariant: `chain[i+1].previous_hash == chain[i].hash`. -/
def Chained (l : List Block) : Prop :=
  Adjacent (fun x y => y.previous_hash = x.hash) l

/-- Strictly increasing block indices along the chain. -/
def IndicesIncreasing (l : List Block) : Prop :=
  Adjacent (fun x y => x.index < y.index) l

/-- Value of one hexadecimal digit, as accepted by Python `bytes.fromhex`. -/
def hexVal (c : Char) : Option Nat :=
  if 48 ≤ c.toNat ∧ c.toNat ≤ 57 then some (c.toNat - 48)
  else if 97 ≤ c.toNat ∧ c.toNat ≤ 102 then some (c.toNat - 87)
  else if 65 ≤ c.toNat ∧ c.toNat ≤ 70 then some (c.toNat - 55)
  else none

/-- Pairs of hexadecimal digits to byte values; `none` models the `ValueError`
raised by `bytes.fromhex` on non-hex input or an odd number of digits. -/
def hexPairs : List Char → Option (List Nat)
  | [] => some []
  | [_] => none
  | c1 :: c2 :: rest =>
    match hexVal c1, hexVal c2, hexPairs rest with
    | some h, some l, some bs => some ((16 * h + l) :: bs)
    | _, _, _ => none

/-- Python `bytes.fromhex` (modulo whitespace tolerance, unused here). -/
def bytesFromHex (s : String) : Option (List Nat) := hexPairs s.data

/-- Outcome of the `ecdsa` library call `public_key.verify(sig, data)`:
a returned boolean, a raised `ecdsa.BadSignatureError`, or any other raised
exception (for example a malformed-signature error). -/
inductive EcdsaOutcome where
  | res (b : Bool)
  | raiseBadSig
  | raiseOther
  deriving DecidableEq

/-- Exceptions escaping `verify_signature`. -/
inductive PyExc where
  | valueError
  | uncaughtEcdsa
  deriving DecidableEq

/-- `verify_signature` (lines 124-128).  The `try` block wraps the whole call,
but the `except` clause catches only `ecdsa.BadSignatureError`; the
`ValueError` of `bytes.fromhex` and any other `ecdsa` exception propagate. -/
def verify_signature (vrf : List Nat → String → EcdsaOutcome) (data : String)
    (signature : String) : Except PyExc Bool :=
  match bytesFromHex signature with
  | none => .error .valueError
  | some sb =>
    match vrf sb data with
    | .res b => .ok b
    | .raiseBadSig => .ok false
    | .raiseOther => .error .uncaughtEcdsa

/-- JSON encoding of a string value (the field values in play contain no
characters needing escapes). -/
def jsonStr (s : String) : String := "\"" ++ s ++ "\""

/-- JSON encoding of a list of strings with the default separators. -/
def jsonStrList (l : List String) : String :=
  "[" ++ String.intercalate ", " (l.map jsonStr) ++ "]"

/-- JSON rendering of a Python float value (integral values render as `n.0`,
which covers every value exercised here). -/
def ratJson (q : Rat) : String :=
  if q.den = 1 then toString q.num ++ ".0"
  else toString q.num ++ "/" ++ toString q.den

/-- `json.dumps(transaction.dict())` as called on line 181: all seven fields of
the transaction, in declaration order (no `sort_keys`), including the
`signature` field. -/
def txDictJson (t : Transaction) : String :=
  "\x7b\"id\": " ++ jsonStr t.id ++
  ", \"sender\": " ++ jsonStr t.sender ++
  ", \"receiver\": " ++ jsonStr t.receiver ++
  ", \"amount\": " ++ ratJson t.amount ++
  ", \"input_utxos\": " ++ jsonStrList t.input_utxos ++
  ", \"output_utxos\": " ++ jsonStrList t.output_utxos ++
  ", \"signature\": " ++ jsonStr t.signature ++ "\x7d"

/-- The message over which `verify_transaction` checks the signature (line 181,
second argument of `verify_signature`). -/
def verifyTxMessage (t : Transaction) : String := txDictJson t

/-- Equality of two transactions on every public field, the `signature` field
excepted. -/
def eqExceptSignature (t1 t2 : Transaction) : Prop :=
  t1.id = t2.id ∧ t1.sender = t2.sender ∧ t1.receiver = t2.receiver ∧
  t1.amount = t2.amount ∧ t1.input_utxos = t2.input_utxos ∧
  t1.output_utxos = t2.output_utxos

/-- Result of the `/verify_transaction` endpoint (lines 174-185). -/
inductive VtErr where
  | invalidOrSpentUtxo
  | invalidSignature
  | raised (e : PyExc)
  deriving DecidableEq

/-- The per-input check of lines 176-178: absent from the pool or spent. -/
def badInput (pool : String → Option UTXO) (uid : String) : Bool :=
  match pool uid with
  | none => true
  | some u => u.is_spent

/-- `/verify_transaction` (lines 174-185).  `keyParse` models
`ecdsa.VerifyingKey.from_string`, which raises (outside any handler) on a
wrong-length key. -/
def verify_transaction (keyParse : List Nat → Except PyExc Unit)
    (vrf : List Nat → String → EcdsaOutcome) (st : Blockchain)
    (t : Transaction) : Except VtErr Unit :=
  if t.input_utxos.any (badInput st.utxo_pool) then .error .invalidOrSpentUtxo
  else
    match bytesFromHex t.sender with
    | none => .error (.raised .valueError)
    | some kb =>
      match keyParse kb with
      | .error e => .error (.raised e)
      | .ok _ =>
        match verify_signature vrf (verifyTxMessage t) t.signature with
        | .error e => .error (.raised e)
        | .ok true => .ok ()
        | .ok false => .error .invalidSignature

/-! Concrete objects used by the witness and counterexample theorems. -/

/-- A digest function returning a constant all-zero digest; used to exercise
the mining loop and the validation path on concrete inputs. -/
def wH : BlockData → String := fun _ => "0000"

/-- The transaction of the worked example: A pays B 10, creating `u1`. -/
def wTx : Transaction :=
  { id := "t1", sender := "alice", receiver := "bob", amount := 10,
    input_utxos := [], output_utxos := ["u1"], signature := "00" }

/-- Genesis block under `wH` at time 0. -/
def wGen : Block :=
  { index := 0, timestamp := 0, transactions := [], previous_hash := "0",
    nonce := 0, hash := "0000" }

/-- The block mined from `wSt1` under `wH`. -/
def wB : Block :=
  { index := 1, timestamp := 0, transactions := [wTx], previous_hash := "0000",
    nonce := 1, hash := "0000" }

/-- The start state with `wTx` submitted. -/
def wSt1 : Blockchain :=
  { blockchainStart wH 0 with
    pending_transactions := (blockchainStart wH 0).pending_transactions ++ [wTx] }

/-- The state after mining `wB` from `wSt1`. -/
def wSt2 : Blockchain :=
  { chain := [create_genesis_block wH 0, wB], pending_transactions := [],
    utxo_pool := update_utxo_pool (fun _ => none) wB, difficulty := 4 }

/-- Transaction with two output identifiers (counterexample to claim C1). -/
def c1Tx : Transaction :=
  { id := "t1", sender := "a", receiver := "b", amount := 7,
    input_utxos := [], output_utxos := ["u1", "u2"], signature := "s" }

/-- Block carrying `c1Tx`. -/
def c1Block : Block :=
  { index := 1, timestamp := 0, transactions := [c1Tx], previous_hash := "p",
    nonce := 0, hash := "h" }

/-- The empty UTXO pool. -/
def emptyPool : String → Option UTXO := fun _ => none

/-- Pool holding a spent `u1` (counterexample to claim C2). -/
def c2Pool : String → Option UTXO :=
  fun k =>
    if k = "u1" then some { transaction_id := "t0", amount := 5, is_spent := true }
    else none

/-- Transaction re-listing the spent `u1` as its output. -/
def c2Tx : Transaction :=
  { id := "t1", sender := "a", receiver := "b", amount := 7,
    input_utxos := [], output_utxos := ["u1"], signature := "s" }

/-- Block carrying `c2Tx`. -/
def c2Block : Block :=
  { index := 2, timestamp := 0, transactions := [c2Tx], previous_hash := "p",
    nonce := 0, hash := "h" }

/-- Transaction spending `u1` into `u9` (witness for the amended claim C2). -/
def c2wTx : Transaction :=
  { id := "t2", sender := "a", receiver := "b", amount := 5,
    input_utxos := ["u1"], output_utxos := ["u9"], signature := "s" }

/-- Block carrying `c2wTx`. -/
def c2wBlock : Block :=
  { index := 2, timestamp := 0, transactions := [c2wTx], previous_hash := "p",
    nonce := 0, hash := "h" }

/-- Digest function returning a 64-character all-zero digest, under which the
external block `c9B` passes validation. -/
def c9H : BlockData → String := fun _ => zeros 64

/-- External block with index 0 that nevertheless passes every check of
`/add_block` under `c9H` (counterexample to claim C9). -/
def c9B : Block :=
  { index := 0, timestamp := 0, transactions := [], previous_hash := zeros 64,
    nonce := 0, hash := zeros 64 }

/-- The state after `/add_block` accepts `c9B`. -/
def c9St2 : Blockchain :=
  { chain := [create_genesis_block c9H 0, c9B], pending_transactions := [],
    utxo_pool := fun _ => none, difficulty := 4 }

/-- External block whose `previous_hash` does not match the tip under `wH`
(witness input for claim C6). -/
def c6B : Block :=
  { index := 1, timestamp := 0, transactions := [], previous_hash := "ffff",
    nonce := 0, hash := "0000" }

/-- Transactions differing only in their `signature` field (claim C7). -/
def c7T1 : Transaction :=
  { id := "t1", sender := "aa", receiver := "bb", amount := 10,
    input_utxos := [], output_utxos := ["u1"], signature := "00" }

/-- Same public fields as `c7T1`, different signature. -/
def c7T2 : Transaction :=
  { id := "t1", sender := "aa", receiver := "bb", amount := 10,
    input_utxos := [], output_utxos := ["u1"], signature := "01" }

/-- A cryptographic verifier that always raises `BadSignatureError`,
modelling a mismatching signature. -/
def c8Vrf : List Nat → String → EcdsaOutcome := fun _ _ => .raiseBadSig

/-- A key parser that always succeeds. -/
def c8KeyParse : List Nat → Except PyExc Unit := fun _ => .ok ()

/-! Lemmas about the UTXO pool operations. -/

/-- `markSpent` leaves every key other than the marked one unchanged. -/
theorem markSpent_ne (pool : String → Option UTXO) (a k : String) (h : k ≠ a) :
    markSpent pool a k = pool k := by
  unfold markSpent
  cases hpa : pool a with
  | none => rfl
  | some u => simp [h]

/-- `markSpent` on a present key flips its flag and keeps the other fields. -/
theorem markSpent_self (pool : String → Option UTXO) (a : String) (u : UTXO)
    (h : pool a = some u) :
    markSpent pool a a = some { u with is_spent := true } := by
  unfold markSpent
  rw [h]
  simp

/-- `markSpent` on an absent key is a no-op (the `in` guard of line 102). -/
theorem markSpent_absent (pool : String → Option UTXO) (a : String)
    (h : pool a = none) : markSpent pool a = pool := by
  unfold markSpent
  rw [h]

/-- The input-marking loop never touches keys outside the input list. -/
theorem foldl_markSpent_not_mem (l : List String) :
    ∀ (pool : String → Option UTXO) (uid : String), uid ∉ l →
      (l.foldl markSpent pool) uid = pool uid := by
  induction l with
  | nil => intro pool uid _; rfl
  | cons a as ih =>
    intro pool uid h
    simp only [List.mem_cons, not_or] at h
    rw [List.foldl_cons, ih (markSpent pool a) uid h.2]
    exact markSpent_ne pool a uid h.1

/-- One `markSpent` call either leaves a key alone or only sets the flag of
an existing entry. -/
theorem markSpent_cases (pool : String → Option UTXO) (a uid : String) :
    markSpent pool a uid = pool uid ∨
    ∃ u, pool uid = some u ∧
      markSpent pool a uid = some { u with is_spent := true } := by
  by_cases hk : uid = a
  · subst hk
    rcases hpa : pool uid with _ | u
    · rw [markSpent_absent pool uid hpa]
      exact Or.inl hpa
    · exact Or.inr ⟨u, rfl, markSpent_self pool uid u hpa⟩
  · exact Or.inl (markSpent_ne pool a uid hk)

/-- The input-marking loop either leaves an entry alone or only sets its
`is_spent` flag, never changing identifier or amount and never deleting. -/
theorem foldl_markSpent_cases (l : List String) :
    ∀ (pool : String → Option UTXO) (uid : String),
      (l.foldl markSpent pool) uid = pool uid ∨
      ∃ u, pool uid = some u ∧
        (l.foldl markSpent pool) uid = some { u with is_spent := true } := by
  induction l with
  | nil => intro pool uid; exact Or.inl rfl
  | cons a as ih =>
    intro pool uid
    rw [List.foldl_cons]
    rcases ih (markSpent pool a) uid with h | ⟨u, hu, hfold⟩ <;>
      rcases markSpent_cases pool a uid with h0 | ⟨u0, hu0, h0⟩
    · exact Or.inl (h.trans h0)
    · exact Or.inr ⟨u0, hu0, h.trans h0⟩
    · exact Or.inr ⟨u, h0.symm.trans hu, hfold⟩
    · rw [h0] at hu
      injection hu with hu
      subst hu
      exact Or.inr ⟨u0, hu0, hfold⟩

/-- Every listed input present in the pool ends up marked spent, with its
transaction id and amount preserved (lines 101-103). -/
theorem foldl_markSpent_mem (l : List String) :
    ∀ (pool : String → Option UTXO) (uid : String) (u : UTXO), uid ∈ l →
      pool uid = some u →
      (l.foldl markSpent pool) uid = some { u with is_spent := true } := by
  induction l with
  | nil => intro pool uid u h _; cases h
  | cons a as ih =>
    intro pool uid u hmem hu
    rw [List.foldl_cons]
    by_cases hk : uid = a
    · subst hk
      have h1 : markSpent pool uid uid = some { u with is_spent := true } :=
        markSpent_self pool uid u hu
      rcases foldl_markSpent_cases as (markSpent pool uid) uid with h | ⟨u2, hu2, hfold⟩
      · rw [h, h1]
      · rw [h1] at hu2
        injection hu2 with hu2
        subst hu2
        exact hfold
    · have hmem2 : uid ∈ as := by
        rcases List.mem_cons.mp hmem with h | h
        · exact absurd h hk
        · exact h
      refine ih (markSpent pool a) uid u hmem2 ?_
      rw [markSpent_ne pool a uid hk]
      exact hu

/-- The output-writing loop leaves keys it does not list unchanged. -/
theorem foldl_writeOutput_not_mem (pairs : List (String × Rat)) :
    ∀ (txid : String) (pool : String → Option UTXO) (uid : String),
      uid ∉ pairs.map Prod.fst →
      (pairs.foldl (writeOutput txid) pool) uid = pool uid := by
  induction pairs with
  | nil => intro txid pool uid _; rfl
  | cons p ps ih =>
    intro txid pool uid h
    simp only [List.map_cons, List.mem_cons, not_or] at h
    rw [List.foldl_cons, ih txid _ uid h.2]
    unfold writeOutput
    simp [h.1]

/-- A spent entry that no transaction of the block re-lists as its written
output stays present and spent across `update_utxo_pool`. -/
theorem foldl_applyTransaction_spent (txs : List Transaction) :
    ∀ (pool : String → Option UTXO) (uid : String) (u : UTXO),
      pool uid = some u → u.is_spent = true →
      (∀ t, t ∈ txs → uid ∉ writtenOutputs t) →
      ∃ u2, (txs.foldl applyTransaction pool) uid = some u2 ∧ u2.is_spent = true := by
  induction txs with
  | nil => intro pool uid u hu hs _; exact ⟨u, hu, hs⟩
  | cons t ts ih =>
    intro pool uid u hu hs hw
    rw [List.foldl_cons]
    have hw1 : uid ∉ writtenOutputs t := hw t (by simp)
    have h1 : applyTransaction pool t uid = (t.input_utxos.foldl markSpent pool) uid := by
      unfold applyTransaction
      exact foldl_writeOutput_not_mem _ t.id _ uid hw1
    have hwts : ∀ t2, t2 ∈ ts → uid ∉ writtenOutputs t2 :=
      fun t2 ht2 => hw t2 (by simp [ht2])
    rcases foldl_markSpent_cases t.input_utxos pool uid with h | ⟨u0, hu0, hf⟩
    · refine ih (applyTransaction pool t) uid u ?_ hs hwts
      rw [h1, h]
      exact hu
    · rw [hu] at hu0
      injection hu0 with hu0
      subst hu0
      refine ih (applyTransaction pool t) uid { u with is_spent := true } ?_ rfl hwts
      rw [h1, hf]

/-- Claim C1 (corrected): `update_utxo_pool` processes the transactions of a
block in order and, per transaction, first marks every listed input spent
(a no-op for absent identifiers) — but, because the source zips the output
list against the one-element list `[transaction.amount]`, it then creates a
new unspent entry carrying the transaction amount for the FIRST output
identifier only; every later output identifier is ignored.  The conjuncts:
the written outputs are exactly `output_utxos.take 1`; present inputs not
re-written as the first output end up spent with their other fields intact;
the first output identifier gets a fresh unspent entry with the transaction
amount; all other keys are untouched; and the block-level update is the
in-order fold of the per-transaction update. -/
theorem C1_amended_utxo_update (pool : String → Option UTXO) (t : Transaction) :
    (writtenOutputs t = t.output_utxos.take 1) ∧
    (∀ uid u, uid ∈ t.input_utxos → pool uid = some u → uid ∉ writtenOutputs t →
      applyTransaction pool t uid = some { u with is_spent := true }) ∧
    (∀ h2, t.output_utxos.head? = some h2 →
      applyTransaction pool t h2 =
        some { transaction_id := t.id, amount := t.amount, is_spent := false }) ∧
    (∀ uid, uid ∉ t.input_utxos → uid ∉ writtenOutputs t →
      applyTransaction pool t uid = pool uid) ∧
    (∀ b : Block, update_utxo_pool pool b = b.transactions.foldl applyTransaction pool) := by
  refine ⟨?_, ?_, ?_, ?_, fun _ => rfl⟩
  · unfold writtenOutputs
    rcases t.output_utxos with _ | ⟨h2, ts⟩
    · rfl
    · simp [List.zip_cons_cons, List.zip_nil_right]
  · intro uid u hin hu hw
    unfold applyTransaction
    rw [foldl_writeOutput_not_mem _ t.id _ uid hw]
    exact foldl_markSpent_mem t.input_utxos pool uid u hin hu
  · intro h2 hh
    unfold applyTransaction
    rcases houts : t.output_utxos with _ | ⟨h3, ts⟩
    · rw [houts] at hh; cases hh
    · rw [houts] at hh
      injection hh with hh
      subst hh
      simp only [List.zip_cons_cons, List.zip_nil_right, List.foldl_cons, List.foldl_nil]
      unfold writeOutput
      simp
  · intro uid hin hw
    unfold applyTransaction
    rw [foldl_writeOutput_not_mem _ t.id _ uid hw]
    exact foldl_markSpent_not_mem t.input_utxos pool uid hin

/-- Claim C1 counterexample: a transaction listing two output identifiers.
After the block is applied, the second output identifier `u2` has NO entry in
the pool, although the claim promises one unspent entry per listed output;
only the first identifier `u1` was written. -/
theorem C1_counterexample :
    "u2" ∈ c1Tx.output_utxos ∧
    c1Block.transactions = [c1Tx] ∧
    update_utxo_pool emptyPool c1Block "u2" = none ∧
    update_utxo_pool emptyPool c1Block "u1" =
      some { transaction_id := "t1", amount := 7, is_spent := false } :=
  ⟨by decide, rfl, rfl, rfl⟩

/-- Witness for `C1_amended_utxo_update` at a concrete pool and transaction:
the present input `u1` is marked spent, the first output `u9` gets a fresh
unspent entry, and an unrelated key `zz` is untouched. -/
theorem C1_amended_witness :
    applyTransaction c2Pool c2wTx "u1" =
      some { transaction_id := "t0", amount := 5, is_spent := true } ∧
    applyTransaction c2Pool c2wTx "u9" =
      some { transaction_id := "t2", amount := 5, is_spent := false } ∧
    applyTransaction c2Pool c2wTx "zz" = c2Pool "zz" :=
  ⟨(C1_amended_utxo_update c2Pool c2wTx).2.1 "u1"
      { transaction_id := "t0", amount := 5, is_spent := true }
      (by decide) rfl (by decide),
   (C1_amended_utxo_update c2Pool c2wTx).2.2.1 "u9" rfl,
   (C1_amended_utxo_update c2Pool c2wTx).2.2.2.1 "zz" (by decide) (by decide)⟩

/-- Claim C2 (corrected): a spent identifier stays present and spent across
any further `update_utxo_pool` — PROVIDED no transaction of the applied block
re-lists that identifier as its written (first) output; the output-writing
statement of line 106 overwrites unconditionally, so without that proviso a
spent entry can be replaced by a fresh unspent one. -/
theorem C2_amended_spent_stays (pool : String → Option UTXO) (b : Block)
    (uid : String) (u : UTXO) (hu : pool uid = some u) (hs : u.is_spent = true)
    (hw : ∀ t, t ∈ b.transactions → uid ∉ writtenOutputs t) :
    ∃ u2, update_utxo_pool pool b uid = some u2 ∧ u2.is_spent = true :=
  foldl_applyTransaction_spent b.transactions pool uid u hu hs hw

/-- Claim C2 counterexample: `u1` is spent in the pool, and applying a block
whose transaction lists `u1` as its output replaces the entry with a fresh
UNSPENT one — the spent flag transitions back from true to false. -/
theorem C2_counterexample :
    c2Pool "u1" = some { transaction_id := "t0", amount := 5, is_spent := true } ∧
    update_utxo_pool c2Pool c2Block "u1" =
      some { transaction_id := "t1", amount := 7, is_spent := false } :=
  ⟨rfl, rfl⟩

/-- Witness for `C2_amended_spent_stays`: the spent `u1` survives a block
that spends it again as an input and writes only `u9`. -/
theorem C2_amended_witness :
    ∃ u2, update_utxo_pool c2Pool c2wBlock "u1" = some u2 ∧ u2.is_spent = true :=
  C2_amended_spent_stays c2Pool c2wBlock "u1"
    { transaction_id := "t0", amount := 5, is_spent := true } rfl rfl
    (by
      intro t ht
      simp only [c2wBlock, List.mem_singleton] at ht
      subst ht
      decide)

/-! Lemmas about the proof-of-work loop and the chain-mutating endpoints. -/

/-- The empty string does not start with a non-empty run of zeros, so the
candidate block (hash `""`) never passes the difficulty test unchanged. -/
theorem pyStartswith_empty_zeros (d : Nat) (h : 0 < d) :
    pyStartswith "" (zeros d) = false := by
  cases d with
  | zero => omega
  | succ n => rfl

/-- If the proof-of-work loop terminates, the returned block satisfies the
difficulty test; it is either the untouched seed or has its hash equal to the
recomputed digest with a strictly larger nonce; and its index, previous hash,
transactions and timestamp are those of the seed. -/
theorem mineLoop_some (H : BlockData → String) (d : Nat) :
    ∀ (fuel : Nat) (b b2 : Block), mineLoop H d fuel b = some b2 →
      pyStartswith b2.hash (zeros d) = true ∧
      (b2 = b ∨ (b2.hash = compute_hash H b2 ∧ b.nonce < b2.nonce)) ∧
      b2.index = b.index ∧ b2.previous_hash = b.previous_hash ∧
      b2.transactions = b.transactions ∧ b2.timestamp = b.timestamp := by
  intro fuel
  induction fuel with
  | zero =>
    intro b b2 h
    unfold mineLoop at h
    split at h
    · injection h with h
      subst h
      next hs => exact ⟨hs, Or.inl rfl, rfl, rfl, rfl, rfl⟩
    · cases h
  | succ n ih =>
    intro b b2 h
    unfold mineLoop at h
    split at h
    · injection h with h
      subst h
      next hs => exact ⟨hs, Or.inl rfl, rfl, rfl, rfl, rfl⟩
    · obtain ⟨h1, h2, h3, h4, h5, h6⟩ := ih _ b2 h
      refine ⟨h1, Or.inr ?_, h3, h4, h5, h6⟩
      rcases h2 with rfl | ⟨hh, hn⟩
      · exact ⟨rfl, by show b.nonce < b.nonce + 1; omega⟩
      · refine ⟨hh, ?_⟩
        have h7 : b.nonce + 1 < b2.nonce := hn
        omega

/-- A block accepted by `validate_block` carries its own recomputed digest and
passes the difficulty test. -/
theorem validate_block_true (H : BlockData → String) (st : Blockchain) (b : Block)
    (h : validate_block H st b = true) :
    b.hash = compute_hash H b ∧ pyStartswith b.hash (zeros st.difficulty) = true := by
  unfold validate_block at h
  split at h
  · cases h
  · split at h
    · cases h
    · next hne hsw =>
      constructor
      · exact not_not.mp hne
      · rcases hb : pyStartswith b.hash (zeros st.difficulty) with _ | _
        · exact absurd hb hsw
        · rfl

/-- Unpacking of a successful `mine_block` call (lines 69-90): the new block
extends the tip, carries the pending transactions and the mining timestamp,
passes the difficulty test, and (whenever the difficulty is positive, as the
fixed configuration 4 always is) its hash is its own recomputed digest and
its nonce is positive; the new state appends the block, clears the pending
pool, and applies the block to the UTXO pool. -/
theorem mine_block_ok_spec (H : BlockData → String) (fuel : Nat) (now : Rat)
    (st : Blockchain) (b : Block) (st2 : Blockchain)
    (h : mine_block H fuel now st = .ok (b, st2)) :
    ∃ last, chainTip st = some last ∧
      st2 = { st with
              chain := (st.chain ++ [b]),
              pending_transactions := [],
              utxo_pool := update_utxo_pool st.utxo_pool b } ∧
      b.index = last.index + 1 ∧ b.previous_hash = last.hash ∧
      b.transactions = st.pending_transactions ∧ b.timestamp = now ∧
      pyStartswith b.hash (zeros st.difficulty) = true ∧
      (0 < st.difficulty → b.hash = compute_hash H b ∧ 0 < b.nonce) := by
  unfold mine_block at h
  split at h
  · cases h
  · split at h
    · cases h
    · next last hlast =>
      split at h
      · cases h
      · next b0 hloop =>
        injection h with h
        injection h with hb hst
        subst hb
        subst hst
        obtain ⟨h1, h2, h3, h4, h5, h6⟩ := mineLoop_some H st.difficulty fuel _ b0 hloop
        refine ⟨last, hlast, rfl, h3, h4, h5, h6, h1, ?_⟩
        intro hd
        rcases h2 with rfl | ⟨hh, hn⟩
        · rw [pyStartswith_empty_zeros st.difficulty hd] at h1
          cases h1
        · exact ⟨hh, hn⟩

/-- Unpacking of a successful `add_block` call (lines 144-156): the accepted
block references the tip hash, passes `validate_block`, and the new state
appends it and applies it to the UTXO pool. -/
theorem add_block_ok_spec (H : BlockData → String) (st : Blockchain) (b : Block)
    (st2 : Blockchain) (h : add_block H st b = .ok st2) :
    ∃ last, chainTip st = some last ∧ b.previous_hash = last.hash ∧
      b.hash = compute_hash H b ∧
      pyStartswith b.hash (zeros st.difficulty) = true ∧
      st2 = { st with
              chain := (st.chain ++ [b]),
              utxo_pool := update_utxo_pool st.utxo_pool b } := by
  unfold add_block at h
  split at h
  · cases h
  · next last hlast =>
    split at h
    · cases h
    · split at h
      · cases h
      · next hne hval =>
        injection h with h
        subst h
        have hv : validate_block H st b = true := by
          rcases hb : validate_block H st b with _ | _
          · exact absurd hb hval
          · rfl
        obtain ⟨hhash, hsw⟩ := validate_block_true H st b hv
        exact ⟨last, hlast, not_not.mp hne, hhash, hsw, rfl⟩

/-- Appending one block that relates to the tip preserves an adjacent-pair
property of the chain. -/
theorem adjacent_append (P : Block → Block → Prop) (l : List Block)
    (last b : Block) (hadj : Adjacent P l)
    (htip : l[l.length - 1]? = some last) (hPb : P last b) :
    Adjacent P (l ++ [b]) := by
  intro i x y hx hy
  have hyl : i + 1 < (l ++ [b]).length := by
    by_contra hc
    rw [List.getElem?_eq_none (by omega)] at hy
    cases hy
  rw [List.length_append, List.length_singleton] at hyl
  by_cases hi : i + 1 < l.length
  · rw [List.getElem?_append, if_pos (by omega)] at hx
    rw [List.getElem?_append, if_pos hi] at hy
    exact hadj i x y hx hy
  · have hieq : i + 1 = l.length := by omega
    rw [List.getElem?_append, if_pos (by omega)] at hx
    have hxi : l[l.length - 1]? = some x := by
      rw [show l.length - 1 = i by omega]
      exact hx
    rw [htip] at hxi
    injection hxi with hxi
    have hyb : (l ++ [b])[i + 1]? = some b := by
      rw [hieq]
      exact List.getElem?_concat_length l b
    rw [hyb] at hy
    injection hy with hy
    subst hy
    rw [← hxi]
    exact hPb

/-- The initial chain `[genesis]` has no adjacent pair. -/
theorem adjacent_start (H : BlockData → String) (t0 : Rat)
    (P : Block → Block → Prop) : Adjacent P (blockchainStart H t0).chain := by
  intro i x y _ hy
  rw [List.getElem?_eq_none (by simp [blockchainStart])] at hy
  cases hy

/-- Claim C3 (confirmed): after every successful append — mined via
`mine_block` or accepted via `add_block` — every adjacent pair of the chain
satisfies `chain[i+1].previous_hash = chain[i].hash`, for every digest
function, starting time and reachable state. -/
theorem C3_hash_chain (H : BlockData → String) (t0 : Rat) (st : Blockchain)
    (h : Reachable H t0 st) : Chained st.chain := by
  induction h with
  | refl => exact adjacent_start H t0 _
  | tail hr hstep ih =>
    rename_i stMid stEnd
    cases hstep with
    | submit t => exact ih
    | mine _ fuel now b hmine =>
      obtain ⟨last, htip, hst2, _, hprev, _⟩ :=
        mine_block_ok_spec H fuel now stMid b stEnd hmine
      rw [hst2]
      exact adjacent_append _ stMid.chain last b ih htip hprev
    | accept _ b hadd =>
      obtain ⟨last, htip, hprev, _, _, hst2⟩ :=
        add_block_ok_spec H stMid b stEnd hadd
      rw [hst2]
      exact adjacent_append _ stMid.chain last b ih htip hprev

/-- Witness for `C3_hash_chain` on a concrete run: submit `wTx`, mine `wB`,
and the resulting two-block chain is hash-linked. -/
theorem C3_hash_chain_witness : Chained wSt2.chain :=
  C3_hash_chain wH 0 wSt2
    (Relation.ReflTransGen.tail
      (Relation.ReflTransGen.tail Relation.ReflTransGen.refl
        (Step.submit (blockchainStart wH 0) wTx))
      (Step.mine wSt1 wSt2 1 0 wB rfl))

/-- Claim C4 (confirmed): for every block returned by mining (at the positive
difficulty the source always configures), recomputing the digest over the
block's fields — which by construction exclude its own `hash` field — yields
exactly `block.hash`, and `block.hash` starts with `difficulty` zero
characters. -/
theorem C4_mined_block_hash (H : BlockData → String) (fuel : Nat) (now : Rat)
    (st : Blockchain) (b : Block) (st2 : Blockchain)
    (hd : 0 < st.difficulty) (h : mine_block H fuel now st = .ok (b, st2)) :
    b.hash = compute_hash H b ∧
    pyStartswith b.hash (zeros st.difficulty) = true ∧
    (∀ s, compute_hash H { b with hash := s } = compute_hash H b) := by
  obtain ⟨last, _, _, _, _, _, _, hsw, hpow⟩ :=
    mine_block_ok_spec H fuel now st b st2 h
  exact ⟨(hpow hd).1, hsw, fun s => rfl⟩

/-- Witness for `C4_mined_block_hash` on the concrete mining run. -/
theorem C4_mined_block_hash_witness :
    0 < wSt1.difficulty ∧
    (wB.hash = compute_hash wH wB ∧
     pyStartswith wB.hash (zeros wSt1.difficulty) = true ∧
     (∀ s, compute_hash wH { wB with hash := s } = compute_hash wH wB)) :=
  ⟨by decide, C4_mined_block_hash wH 1 0 wSt1 wB wSt2 (by decide) rfl⟩

/-- Claim C10 (confirmed): every block returned by mining has nonce at least
one — the loop increments the nonce before computing the first hash, so nonce
zero is never even tested (the seed hash is the empty string, which fails any
positive difficulty). -/
theorem C10_mined_nonce_positive (H : BlockData → String) (fuel : Nat)
    (now : Rat) (st : Blockchain) (b : Block) (st2 : Blockchain)
    (hd : 0 < st.difficulty) (h : mine_block H fuel now st = .ok (b, st2)) :
    1 ≤ b.nonce := by
  obtain ⟨last, _, _, _, _, _, _, _, hpow⟩ :=
    mine_block_ok_spec H fuel now st b st2 h
  have h1 := (hpow hd).2
  omega

/-- Witness for `C10_mined_nonce_positive`: the concretely mined block `wB`
has nonce exactly 1. -/
theorem C10_mined_nonce_positive_witness :
    0 < wSt1.difficulty ∧ 1 ≤ wB.nonce ∧ wB.nonce = 1 :=
  ⟨by decide, C10_mined_nonce_positive wH 1 0 wSt1 wB wSt2 (by decide) rfl, rfl⟩

/-- Claim C9 (corrected, amended part): along runs that use only transaction
submission and mining, the chain head is the genesis block at index 0 and the
indices are strictly increasing (each mined block gets index tip + 1).
`add_block`, however, never inspects the index, so the unamended claim fails
(see the counterexample). -/
theorem C9_amended_mining_indices (H : BlockData → String) (t0 : Rat)
    (st : Blockchain) (h : MiningReachable H t0 st) :
    st.chain[0]?.map Block.index = some 0 ∧ IndicesIncreasing st.chain := by
  induction h with
  | refl => exact ⟨rfl, adjacent_start H t0 _⟩
  | tail hr hstep ih =>
    rename_i stMid stEnd
    cases hstep with
    | submit t => exact ih
    | mine _ fuel now b hmine =>
      obtain ⟨last, htip, hst2, hidx, _⟩ :=
        mine_block_ok_spec H fuel now stMid b stEnd hmine
      have hpos : 0 < stMid.chain.length := by
        by_contra hc
        rw [show chainTip stMid = stMid.chain[stMid.chain.length - 1]? from rfl,
          List.getElem?_eq_none (by omega)] at htip
        cases htip
      rw [hst2]
      constructor
      · show (stMid.chain ++ [b])[0]?.map Block.index = some 0
        rw [List.getElem?_append, if_pos hpos]
        exact ih.1
      · refine adjacent_append _ stMid.chain last b ih.2 htip ?_
        rw [hidx]
        omega

/-- Claim C9 counterexample: under the digest function `c9H` the external
block `c9B` with index 0 has a valid hash and valid difficulty, so
`add_block` appends it after the genesis block (also index 0): a successful
append whose new block index is NOT greater than its predecessor's. -/
theorem C9_counterexample :
    Reachable c9H 0 c9St2 ∧
    c9St2.chain.map Block.index = [0, 0] ∧
    ¬ IndicesIncreasing c9St2.chain := by
  refine ⟨Relation.ReflTransGen.tail Relation.ReflTransGen.refl
    (Step.accept (blockchainStart c9H 0) c9St2 c9B rfl), rfl, ?_⟩
  intro hinc
  have h1 := hinc 0 (create_genesis_block c9H 0) c9B rfl rfl
  exact absurd h1 (by decide)

/-- Witness for `C9_amended_mining_indices` on the concrete mining run. -/
theorem C9_amended_mining_indices_witness :
    wSt2.chain[0]?.map Block.index = some 0 ∧ IndicesIncreasing wSt2.chain :=
  C9_amended_mining_indices wH 0 wSt2
    (Relation.ReflTransGen.tail
      (Relation.ReflTransGen.tail Relation.ReflTransGen.refl
        (MiningStep.submit (blockchainStart wH 0) wTx))
      (MiningStep.mine wSt1 wSt2 1 0 wB rfl))

/-- Mining with an empty pending pool fails with `emptyPendingQueue`
(lines 70-71). -/
theorem mine_block_empty (H : BlockData → String) (fuel : Nat) (now : Rat)
    (st : Blockchain) (h : st.pending_transactions = []) :
    mine_block H fuel now st = .error .emptyPendingQueue := by
  unfold mine_block
  rw [h]
  rfl

/-- Mining with a non-empty pending pool never reports `emptyPendingQueue`. -/
theorem mine_block_nonempty (H : BlockData → String) (fuel : Nat) (now : Rat)
    (st : Blockchain) (h : st.pending_transactions ≠ []) :
    mine_block H fuel now st ≠ .error .emptyPendingQueue := by
  have hp : st.pending_transactions.isEmpty = false := by
    rcases hl : st.pending_transactions with _ | ⟨a, as⟩
    · exact absurd hl h
    · rfl
  unfold mine_block
  rw [hp, if_neg (by simp)]
  split
  · simp
  · split
    · simp
    · simp

/-- Claim C5 (confirmed): `mine_block` fails with `emptyPendingQueue` exactly
when the pending pool is empty; on success the mined block carries the pool's
contents, is appended to the chain, the pool is cleared, and the block is
applied to the UTXO ledger; on any failure the state — and so the pool — is
unchanged, so the pool is cleared exactly once, only on success. -/
theorem C5_mine_next_block (H : BlockData → String) (fuel : Nat) (now : Rat)
    (st : Blockchain) :
    (mine_block H fuel now st = .error .emptyPendingQueue ↔
      st.pending_transactions = []) ∧
    (∀ b st2, mine_block H fuel now st = .ok (b, st2) →
      b.transactions = st.pending_transactions ∧
      st2.chain = st.chain ++ [b] ∧
      st2.pending_transactions = [] ∧
      st2.utxo_pool = update_utxo_pool st.utxo_pool b) ∧
    (∀ e, mine_block H fuel now st = .error e →
      mineBlockState H fuel now st = st) := by
  refine ⟨⟨?_, ?_⟩, ?_, ?_⟩
  · intro h
    by_contra hne
    exact mine_block_nonempty H fuel now st hne h
  · intro h
    exact mine_block_empty H fuel now st h
  · intro b st2 h
    obtain ⟨last, _, hst2, _, _, htxs, _, _, _⟩ :=
      mine_block_ok_spec H fuel now st b st2 h
    rw [hst2]
    exact ⟨htxs, rfl, rfl, rfl⟩
  · intro e h
    unfold mineBlockState
    rw [h]

/-- Witness for `C5_mine_next_block`: the concrete successful run, plus the
empty-pool failure leaving the fresh state unchanged. -/
theorem C5_mine_next_block_witness :
    (wB.transactions = wSt1.pending_transactions ∧
     wSt2.chain = wSt1.chain ++ [wB] ∧
     wSt2.pending_transactions = [] ∧
     wSt2.utxo_pool = update_utxo_pool wSt1.utxo_pool wB) ∧
    mine_block wH 1 0 (blockchainStart wH 0) = .error .emptyPendingQueue ∧
    mineBlockState wH 1 0 (blockchainStart wH 0) = blockchainStart wH 0 :=
  ⟨(C5_mine_next_block wH 1 0 wSt1).2.1 wB wSt2 rfl,
   (C5_mine_next_block wH 1 0 (blockchainStart wH 0)).1.mpr rfl,
   (C5_mine_next_block wH 1 0 (blockchainStart wH 0)).2.2 .emptyPendingQueue
     ((C5_mine_next_block wH 1 0 (blockchainStart wH 0)).1.mpr rfl)⟩

/-- Claim C6 (confirmed): an external block whose `previous_hash` differs
from the tip hash is rejected with `previousHashMismatch`, and on ANY
`add_block` failure the state — chain length and UTXO pool included — is
unchanged (every raise in the endpoint precedes the first mutation). -/
theorem C6_add_block_failure (H : BlockData → String) (st : Blockchain) (b : Block) :
    (∀ last, chainTip st = some last → b.previous_hash ≠ last.hash →
      add_block H st b = .error .previousHashMismatch) ∧
    (∀ e, add_block H st b = .error e →
      addBlockState H st b = st ∧
      (addBlockState H st b).chain.length = st.chain.length ∧
      (addBlockState H st b).utxo_pool = st.utxo_pool) := by
  constructor
  · intro last htip hne
    unfold add_block
    rw [htip]
    exact if_pos hne
  · intro e h
    have hs : addBlockState H st b = st := by
      unfold addBlockState
      rw [h]
    exact ⟨hs, by rw [hs], by rw [hs]⟩

/-- Witness for `C6_add_block_failure`: the mismatching external block `c6B`
is rejected and the fresh state survives untouched. -/
theorem C6_add_block_failure_witness :
    add_block wH (blockchainStart wH 0) c6B = .error .previousHashMismatch ∧
    addBlockState wH (blockchainStart wH 0) c6B = blockchainStart wH 0 :=
  ⟨(C6_add_block_failure wH (blockchainStart wH 0) c6B).1
      (create_genesis_block wH 0) rfl (by decide),
   ((C6_add_block_failure wH (blockchainStart wH 0) c6B).2 .previousHashMismatch
      ((C6_add_block_failure wH (blockchainStart wH 0) c6B).1
        (create_genesis_block wH 0) rfl (by decide))).1⟩

/-- Claim C7 (code bug): the message that `verify_transaction` passes to
`verify_signature` is `json.dumps(transaction.dict())`, which INCLUDES the
`signature` field: two transactions equal on every public field but with
different signatures yield different messages.  The specification requires
the encoding to exclude the signature field (an honest signer cannot sign a
message containing that very signature). -/
theorem C7_message_includes_signature :
    eqExceptSignature c7T1 c7T2 ∧ verifyTxMessage c7T1 ≠ verifyTxMessage c7T2 :=
  ⟨⟨rfl, rfl, rfl, rfl, rfl, rfl⟩, by decide⟩

/-- A cryptographic mismatch (`ecdsa.BadSignatureError`) is caught and
reported as `False` by `verify_signature` (lines 127-128). -/
theorem verify_signature_badsig (vrf : List Nat → String → EcdsaOutcome)
    (data sig : String) (sb : List Nat) (hhex : bytesFromHex sig = some sb)
    (hv : vrf sb data = .raiseBadSig) :
    verify_signature vrf data sig = .ok false := by
  simp only [verify_signature, hhex, hv]

/-- A non-hex signature string makes `bytes.fromhex` raise `ValueError`,
which the handler of line 127 does not catch. -/
theorem verify_signature_badhex (vrf : List Nat → String → EcdsaOutcome)
    (data sig : String) (hhex : bytesFromHex sig = none) :
    verify_signature vrf data sig = .error .valueError := by
  simp only [verify_signature, hhex]

/-- Claim C8 counterexample: with the signature string `"zz"` (malformed,
non-hex) the verification step raises (the model returns the uncaught
`ValueError`) instead of returning false. -/
theorem C8_counterexample :
    verify_signature c8Vrf "msg" "zz" = .error .valueError ∧
    verify_signature c8Vrf "msg" "zz" ≠ .ok false := by
  have h0 : verify_signature c8Vrf "msg" "zz" = .error .valueError := rfl
  exact ⟨h0, fun hc => Except.noConfusion (hc.symm.trans h0)⟩

/-- Claim C8 (corrected): `verify_signature` returns false (and
`verify_transaction` surfaces `InvalidSignature`) on a cryptographic
mismatch, BUT a malformed (non-hex) signature string raises an uncaught
`ValueError` from `bytes.fromhex` — only `ecdsa.BadSignatureError` is caught
— and wrong-length sender keys raise inside `verify_transaction` before
`verify_signature` is even called. -/
theorem C8_amended_verify (vrf : List Nat → String → EcdsaOutcome)
    (keyParse : List Nat → Except PyExc Unit) (st : Blockchain)
    (data sig : String) (t : Transaction) :
    (∀ sb, bytesFromHex sig = some sb → vrf sb data = .raiseBadSig →
      verify_signature vrf data sig = .ok false) ∧
    (bytesFromHex sig = none →
      verify_signature vrf data sig = .error .valueError) ∧
    (∀ kb sb, t.input_utxos.any (badInput st.utxo_pool) = false →
      bytesFromHex t.sender = some kb → keyParse kb = .ok () →
      bytesFromHex t.signature = some sb →
      vrf sb (verifyTxMessage t) = .raiseBadSig →
      verify_transaction keyParse vrf st t = .error .invalidSignature) := by
  refine ⟨fun sb h1 h2 => verify_signature_badsig vrf data sig sb h1 h2,
          fun h1 => verify_signature_badhex vrf data sig h1, ?_⟩
  intro kb sb hin hkb hkp hsb hv
  have hvs := verify_signature_badsig vrf (verifyTxMessage t) t.signature sb hsb hv
  simp [verify_transaction, hin, hkb, hkp, hvs]

/-- Witness for `C8_amended_verify`: a well-formed hex signature with a
mismatching verifier yields `ok false`; the non-hex string `"zz"` yields the
uncaught `ValueError`; and `verify_transaction` surfaces the mismatch on the
concrete transaction `c7T1` as `invalidSignature`. -/
theorem C8_amended_verify_witness :
    verify_signature c8Vrf "m" "00ff" = .ok false ∧
    verify_signature c8Vrf "m" "zz" = .error .valueError ∧
    verify_transaction c8KeyParse c8Vrf (blockchainStart wH 0) c7T1 =
      .error .invalidSignature :=
  ⟨(C8_amended_verify c8Vrf c8KeyParse (blockchainStart wH 0) "m" "00ff" c7T1).1
      [0, 255] rfl rfl,
   (C8_amended_verify c8Vrf c8KeyParse (blockchainStart wH 0) "m" "zz" c7T1).2.1 rfl,
   (C8_amended_verify c8Vrf c8KeyParse (blockchainStart wH 0) "m" "zz" c7T1).2.2
      [170] [0] rfl rfl rfl rfl rfl⟩

end BApp
